import Mathlib

/-!
Shallow embedding of the one-address CPU assembler (Rust sources:
`src/token.rs`, `src/instructions.rs`, `src/parser.rs`, `src/main.rs`).

Machine integers are modelled as `Nat`/`Int`:
  * `u8` values (addresses, bytes) are `Nat`, with `% 256` at the cast sites
    the source has (`as u8`);
  * `i16`/`i8` values (numeric literals, immediates) are `Int`; the Rust
    `as u8` reinterpretation is `Int.emod · 256` (always in `[0, 256)`);
  * source spans (`logos::Span`, a byte range) are pairs of offsets; the
    embedded lexer counts characters, which coincides with bytes on the
    ASCII-only inputs the grammar recognizes.
-/

set_option maxRecDepth 100000

namespace OneAddr

/-- A source span: `logos::Span` (`Range<usize>`), start inclusive, stop
exclusive. -/
structure Span where
  start : Nat
  stop : Nat
deriving DecidableEq, Repr

/-- `Token` from `src/token.rs`: section markers, payload-carrying literal and
identifier tokens, the 17 mnemonics, and the logos `Error` variant. -/
inductive Token where
  | Text | Data | Label | Number
  | NumLiteral (i : Int)
  | LabelIdent (s : String)
  | Add | AddImmediate | Subtract | SubtractImmediate
  | Multiply | MultiplyImmediate | Divide | DivideImmediate
  | Remainder | RemainderImmediate | Shift | And | AndImmediate
  | BranchZero | Branch | ClearAc | Store | NoOp
  | Error
deriving DecidableEq, Repr

/-- `impl fmt::Display for Token` from `src/token.rs`. -/
def Token.toDisplay : Token → String
  | .Text => ".text"
  | .Data => ".data"
  | .Label => ".label"
  | .Number => ".number"
  | .NumLiteral i => toString i
  | .LabelIdent s => s
  | .Add => "add"
  | .AddImmediate => "addi"
  | .Subtract => "sub"
  | .SubtractImmediate => "subi"
  | .Multiply => "mul"
  | .MultiplyImmediate => "muli"
  | .Divide => "div"
  | .DivideImmediate => "divi"
  | .Remainder => "rem"
  | .RemainderImmediate => "remi"
  | .Shift => "shift"
  | .And => "and"
  | .AndImmediate => "andi"
  | .BranchZero => "beqz"
  | .Branch => "br"
  | .ClearAc => "clac"
  | .Store => "stor"
  | .NoOp => "noop"
  | .Error => "Error"

/-- `Instruction<'a>` from `src/instructions.rs`: operands are still label
names (`&'a str`) or signed 8-bit immediates (`i8`, here `Int`). -/
inductive Instruction where
  | Add (label : String)
  | AddImmediate (i : Int)
  | Subtract (label : String)
  | SubtractImmediate (i : Int)
  | Multiply (label : String)
  | MultiplyImmediate (i : Int)
  | Divide (label : String)
  | DivideImmediate (i : Int)
  | Remainder (label : String)
  | RemainderImmediate (i : Int)
  | Shift (i : Int)
  | And (label : String)
  | AndImmediate (i : Int)
  | BranchZero (label : String)
  | Branch (label : String)
  | ClearAc
  | Store (label : String)
  | NoOp
deriving DecidableEq, Repr

/-- The derived `Debug` rendering of `Instruction` (used by
`ParseError::InstructionOverflow` via `format!("{:?}", instr)`). -/
def Instruction.debugString : Instruction → String
  | .Add l => "Add(\x22" ++ l ++ "\x22)"
  | .AddImmediate i => "AddImmediate(" ++ toString i ++ ")"
  | .Subtract l => "Subtract(\x22" ++ l ++ "\x22)"
  | .SubtractImmediate i => "SubtractImmediate(" ++ toString i ++ ")"
  | .Multiply l => "Multiply(\x22" ++ l ++ "\x22)"
  | .MultiplyImmediate i => "MultiplyImmediate(" ++ toString i ++ ")"
  | .Divide l => "Divide(\x22" ++ l ++ "\x22)"
  | .DivideImmediate i => "DivideImmediate(" ++ toString i ++ ")"
  | .Remainder l => "Remainder(\x22" ++ l ++ "\x22)"
  | .RemainderImmediate i => "RemainderImmediate(" ++ toString i ++ ")"
  | .Shift i => "Shift(" ++ toString i ++ ")"
  | .And l => "And(\x22" ++ l ++ "\x22)"
  | .AndImmediate i => "AndImmediate(" ++ toString i ++ ")"
  | .BranchZero l => "BranchZero(\x22" ++ l ++ "\x22)"
  | .Branch l => "Branch(\x22" ++ l ++ "\x22)"
  | .ClearAc => "ClearAc"
  | .Store l => "Store(\x22" ++ l ++ "\x22)"
  | .NoOp => "NoOp"

/-- `AddressedInstruction` from `src/instructions.rs`: every label operand has
been replaced by a concrete address (`u8`, here `Nat`). -/
inductive AddressedInstruction where
  | Add (address : Nat)
  | AddImmediate (i : Int)
  | Subtract (address : Nat)
  | SubtractImmediate (i : Int)
  | Multiply (address : Nat)
  | MultiplyImmediate (i : Int)
  | Divide (address : Nat)
  | DivideImmediate (i : Int)
  | Remainder (address : Nat)
  | RemainderImmediate (i : Int)
  | Shift (i : Int)
  | And (address : Nat)
  | AndImmediate (i : Int)
  | BranchZero (address : Nat)
  | Branch (address : Nat)
  | ClearAc
  | Store (address : Nat)
  | NoOp
deriving DecidableEq, Repr

/-- `AddressedInstruction::opcode` from `src/instructions.rs`. -/
def AddressedInstruction.opcode : AddressedInstruction → Nat
  | .NoOp => 0
  | .AddImmediate _ | .SubtractImmediate _ | .MultiplyImmediate _
  | .DivideImmediate _ | .AndImmediate _ | .RemainderImmediate _
  | .Shift _ => 1
  | .Add _ | .Subtract _ | .Multiply _ | .Divide _ | .Remainder _
  | .And _ => 2
  | .ClearAc => 3
  | .Store _ => 4
  | .BranchZero _ => 5
  | .Branch _ => 6

/-- `AddressedInstruction::alu_op` from `src/instructions.rs`. -/
def AddressedInstruction.alu_op : AddressedInstruction → Nat
  | .NoOp | .ClearAc | .Store _ | .BranchZero _ | .Branch _ => 0
  | .AddImmediate _ | .Add _ => 0
  | .SubtractImmediate _ | .Subtract _ => 1
  | .MultiplyImmediate _ | .Multiply _ => 2
  | .DivideImmediate _ | .Divide _ => 3
  | .RemainderImmediate _ | .Remainder _ => 4
  | .AndImmediate _ | .And _ => 5
  | .Shift _ => 6

/-- `AddressedInstruction::value` from `src/instructions.rs`; the Rust
`*i as u8` on an immediate is the two's-complement byte `(i % 256).toNat`. -/
def AddressedInstruction.value : AddressedInstruction → Nat
  | .NoOp | .ClearAc => 0
  | .AddImmediate i | .SubtractImmediate i | .MultiplyImmediate i
  | .DivideImmediate i | .AndImmediate i | .RemainderImmediate i
  | .Shift i => (i % 256).toNat
  | .Add a | .Subtract a | .Multiply a | .Divide a | .And a
  | .Store a | .Remainder a | .Branch a | .BranchZero a => a

/-- `AddressedInstruction::bytes` from `src/instructions.rs`:
`[(opcode << 4) | alu_op, value]`. -/
def AddressedInstruction.bytes (instr : AddressedInstruction) : List Nat :=
  [(instr.opcode <<< 4) ||| instr.alu_op, instr.value]

/-- `i16::to_be_bytes` for an in-range `Int`: the two big-endian bytes of the
16-bit two's-complement pattern `v % 2^16`. -/
def i16ToBeBytes (v : Int) : List Nat :=
  [(v % 65536).toNat / 256, (v % 65536).toNat % 256]

/-- `AddressedProgram` from `src/parser.rs`. -/
structure AddressedProgram where
  text : List AddressedInstruction
  data : List Int
deriving DecidableEq, Repr

/-- `AddressedProgram::assemble_text` from `src/parser.rs`: the concatenated
2-byte encodings of the text stream. -/
def AddressedProgram.assemble_text (p : AddressedProgram) : List Nat :=
  p.text.flatMap AddressedInstruction.bytes

/-- `AddressedProgram::data_bytes` from `src/parser.rs`: the concatenated
2-byte big-endian encodings of the data stream. -/
def AddressedProgram.data_bytes (p : AddressedProgram) : List Nat :=
  p.data.flatMap i16ToBeBytes

/-! ### Lexer

Embedding of the `logos`-derived lexer of `src/token.rs`: at every position,
skip whitespace runs (`[ \t\n\r]+`) and comments (`#.*`), then take the
longest match among the keyword literals, the numeric-literal regexes
(`[0-9]+` with `priority = 2`, `0x[0-9a-f]+`) and the identifier regex
(`[_a-zA-Z0-9]+`); on equal length a keyword beats both numeric forms, which
beat the identifier.  A numeric match whose value exceeds `i16::MAX` fails
its `from_str_radix(..).ok()` callback and lexes as `Error`, as does any
character no pattern matches (consuming one character). -/

def isWsChar (c : Char) : Bool := c = ' ' || c = '\t' || c = '\n' || c = '\r'

def isDigitChar (c : Char) : Bool := '0' ≤ c && c ≤ '9'

def isHexChar (c : Char) : Bool := isDigitChar c || ('a' ≤ c && c ≤ 'f')

def isIdentChar (c : Char) : Bool :=
  c = '_' || isDigitChar c || ('a' ≤ c && c ≤ 'z') || ('A' ≤ c && c ≤ 'Z')

/-- The literal `#[token(...)]` patterns of `src/token.rs`. -/
def keywordToks : List (List Char × Token) :=
  [(".text".toList, Token.Text), (".data".toList, Token.Data),
   (".label".toList, Token.Label), (".number".toList, Token.Number),
   ("add".toList, Token.Add), ("addi".toList, Token.AddImmediate),
   ("sub".toList, Token.Subtract), ("subi".toList, Token.SubtractImmediate),
   ("mul".toList, Token.Multiply), ("muli".toList, Token.MultiplyImmediate),
   ("div".toList, Token.Divide), ("divi".toList, Token.DivideImmediate),
   ("rem".toList, Token.Remainder), ("remi".toList, Token.RemainderImmediate),
   ("shift".toList, Token.Shift), ("and".toList, Token.And),
   ("andi".toList, Token.AndImmediate), ("beqz".toList, Token.BranchZero),
   ("br".toList, Token.Branch), ("clac".toList, Token.ClearAc),
   ("stor".toList, Token.Store), ("noop".toList, Token.NoOp)]

/-- One step of the longest-keyword scan: keep the longer match. -/
def kwStep (cs : List Char) (best : Option (Nat × Token))
    (kt : List Char × Token) : Option (Nat × Token) :=
  if kt.1.isPrefixOf cs then
    match best with
    | none => some (kt.1.length, kt.2)
    | some (l, t) => if kt.1.length > l then some (kt.1.length, kt.2) else some (l, t)
  else best

/-- Longest keyword literal that is a prefix of the remaining input. -/
def longestKw (cs : List Char) : Option (Nat × Token) :=
  keywordToks.foldl (kwStep cs) none

/-- Length of the maximal prefix satisfying `p`. -/
def takeWhileCount (p : Char → Bool) : List Char → Nat
  | [] => 0
  | c :: rest => if p c then takeWhileCount p rest + 1 else 0

/-- Value of a decimal digit run (`i16::from_str_radix(s, 10)` on the slice). -/
def decValNat (cs : List Char) : Nat :=
  cs.foldl (fun acc c => acc * 10 + (c.toNat - 48)) 0

def hexDigitVal (c : Char) : Nat :=
  if isDigitChar c then c.toNat - 48 else c.toNat - 87

/-- Value of a hex digit run (`i16::from_str_radix(s, 16)` on the slice). -/
def hexValNat (cs : List Char) : Nat :=
  cs.foldl (fun acc c => acc * 16 + hexDigitVal c) 0

/-- The `NumLiteral` callback: `from_str_radix` succeeds only up to
`i16::MAX` (the lexical form is unsigned); a failing callback turns the
match into `Error`. -/
def numTok (n : Nat) : Token :=
  if n ≤ 32767 then Token.NumLiteral (Int.ofNat n) else Token.Error

/-- A candidate lexer match: its length, its tie-break priority, and the
token it yields. -/
structure Cand where
  len : Nat
  prio : Nat
  tok : Token
deriving DecidableEq, Repr

/-- All pattern matches at the current position, in priority order:
keyword literal (4), hex literal (3), decimal literal (2), identifier (1). -/
def candList (cs : List Char) : List Cand :=
  (match longestKw cs with
   | some (l, t) => [⟨l, 4, t⟩]
   | none => [])
  ++ (match cs with
      | '0' :: 'x' :: rest =>
        if takeWhileCount isHexChar rest > 0 then
          [⟨takeWhileCount isHexChar rest + 2, 3,
            numTok (hexValNat (rest.take (takeWhileCount isHexChar rest)))⟩]
        else []
      | _ => [])
  ++ (if takeWhileCount isDigitChar cs > 0 then
        [⟨takeWhileCount isDigitChar cs, 2,
          numTok (decValNat (cs.take (takeWhileCount isDigitChar cs)))⟩]
      else [])
  ++ (if takeWhileCount isIdentChar cs > 0 then
        [⟨takeWhileCount isIdentChar cs, 1,
          Token.LabelIdent (String.mk (cs.take (takeWhileCount isIdentChar cs)))⟩]
      else [])

/-- Maximal munch with priority tie-break. -/
def betterCand (a b : Cand) : Cand :=
  if b.len > a.len then b else if b.len = a.len && b.prio > a.prio then b else a

def bestCand (cs : List Char) : Option Cand :=
  match candList cs with
  | [] => none
  | c :: rest => some (rest.foldl betterCand c)

/-- One lexer run over the input; `fuel` only bounds the recursion and is
chosen below so that it never runs out (every step consumes at least one
character). -/
def lexGo : Nat → List Char → Nat → List (Token × Span)
  | 0, _, _ => []
  | _, [], _ => []
  | fuel + 1, c :: rest, pos =>
    if isWsChar c then
      let k := takeWhileCount isWsChar (c :: rest)
      lexGo fuel ((c :: rest).drop k) (pos + k)
    else if c = '#' then
      let k := 1 + takeWhileCount (fun ch => ch ≠ '\n') rest
      lexGo fuel ((c :: rest).drop k) (pos + k)
    else
      match bestCand (c :: rest) with
      | some cand =>
        (cand.tok, ⟨pos, pos + cand.len⟩)
          :: lexGo fuel ((c :: rest).drop cand.len) (pos + cand.len)
      | none => (Token.Error, ⟨pos, pos + 1⟩) :: lexGo fuel rest (pos + 1)

/-- `Token::lexer(input)` run to completion: the token/span sequence the
parser consumes. -/
def lex (input : String) : List (Token × Span) :=
  lexGo (input.toList.length + 1) input.toList 0

/-! ### Parser state and helper operations (`src/parser.rs`) -/

/-- `ParseError` from `src/parser.rs`. -/
inductive ParseError where
  | InvalidToken (found : String) (expected : String) (span : Span)
  | UnexpectedEof (expected : String)
  | DuplicateLabel (name : String) (first : Span) (second : Span)
  | InstructionOverflow (instr : String) (span : Span)
  | DataOverflow (data : String) (span : Span)
  | InvalidNumber (i : Int) (span : Span)
  | UnknownLabel (name : String)
deriving DecidableEq, Repr

/-- A label table (`HashMap<&str, (u8, Span)>`): name to address and the span
of the defining identifier.  Modelled as an association list; insertion is
guarded by a containment check, so keys stay unique and lookup order never
matters. -/
abbrev LabelTable := List (String × Nat × Span)

def lookupLabel : LabelTable → String → Option (Nat × Span)
  | [], _ => none
  | (n, v) :: rest, name => if n = name then some v else lookupLabel rest name

/-- The parsing state of `Parser` (`src/parser.rs`): the token stream and
lexer live outside this structure, threaded explicitly by the parse
functions below. -/
structure Parser where
  text : List Instruction
  data : List Int
  text_labels : LabelTable
  data_labels : LabelTable
deriving DecidableEq, Repr

/-- `Parser::current_text`: `self.text.len() as u8`. -/
def Parser.current_text (p : Parser) : Nat := p.text.length % 256

/-- `Parser::current_data`: `self.data.len() as u8`. -/
def Parser.current_data (p : Parser) : Nat := p.data.length % 256

/-- `Parser::text_label_address`. -/
def Parser.text_label_address (p : Parser) (label : String) : Option Nat :=
  (lookupLabel p.text_labels label).map Prod.fst

/-- `Parser::data_label_address`. -/
def Parser.data_label_address (p : Parser) (label : String) : Option Nat :=
  (lookupLabel p.data_labels label).map Prod.fst

/-- The table-updating part of `Parser::add_text_label` (the caller has
already consumed the identifier token `label` whose span is `span`). -/
def Parser.add_text_label (p : Parser) (label : String) (span : Span) :
    Except ParseError Parser :=
  match lookupLabel p.text_labels label with
  | some (_, first) => .error (.DuplicateLabel label first span)
  | none =>
    .ok { p with text_labels := (label, p.current_text, span) :: p.text_labels }

/-- The table-updating part of `Parser::add_data_label`. -/
def Parser.add_data_label (p : Parser) (label : String) (span : Span) :
    Except ParseError Parser :=
  match lookupLabel p.data_labels label with
  | some (_, first) => .error (.DuplicateLabel label first span)
  | none =>
    .ok { p with data_labels := (label, p.current_data, span) :: p.data_labels }

/-- `Parser::add_instr`; `span` is `self.lexer.span()` at the call. -/
def Parser.add_instr (p : Parser) (instr : Instruction) (span : Span) :
    Except ParseError Parser :=
  if p.text.length = 255 then
    .error (.InstructionOverflow instr.debugString span)
  else
    .ok { p with text := p.text ++ [instr] }

/-- `Parser::add_data`; `span` is `self.lexer.span()` at the call. -/
def Parser.add_data (p : Parser) (d : Int) (span : Span) :
    Except ParseError Parser :=
  if p.data.length = 255 then
    .error (.DataOverflow (toString d) span)
  else
    .ok { p with data := p.data ++ [d] }

/-- The loop body of `Parser::address_program`: resolve one symbolic
instruction, data-space for the ALU-register forms and `Store`, text-space
for `BranchZero`/`Branch`, pass-through for immediates and the zero-operand
forms. -/
def Parser.resolveInstr (p : Parser) : Instruction →
    Except ParseError AddressedInstruction
  | .Add label =>
    match p.data_label_address label with
    | some a => .ok (.Add a)
    | none => .error (.UnknownLabel label)
  | .Subtract label =>
    match p.data_label_address label with
    | some a => .ok (.Subtract a)
    | none => .error (.UnknownLabel label)
  | .Multiply label =>
    match p.data_label_address label with
    | some a => .ok (.Multiply a)
    | none => .error (.UnknownLabel label)
  | .Divide label =>
    match p.data_label_address label with
    | some a => .ok (.Divide a)
    | none => .error (.UnknownLabel label)
  | .Remainder label =>
    match p.data_label_address label with
    | some a => .ok (.Remainder a)
    | none => .error (.UnknownLabel label)
  | .And label =>
    match p.data_label_address label with
    | some a => .ok (.And a)
    | none => .error (.UnknownLabel label)
  | .BranchZero label =>
    match p.text_label_address label with
    | some a => .ok (.BranchZero a)
    | none => .error (.UnknownLabel label)
  | .Branch label =>
    match p.text_label_address label with
    | some a => .ok (.Branch a)
    | none => .error (.UnknownLabel label)
  | .Store label =>
    match p.data_label_address label with
    | some a => .ok (.Store a)
    | none => .error (.UnknownLabel label)
  | .AddImmediate i => .ok (.AddImmediate i)
  | .SubtractImmediate i => .ok (.SubtractImmediate i)
  | .MultiplyImmediate i => .ok (.MultiplyImmediate i)
  | .DivideImmediate i => .ok (.DivideImmediate i)
  | .RemainderImmediate i => .ok (.RemainderImmediate i)
  | .Shift i => .ok (.Shift i)
  | .AndImmediate i => .ok (.AndImmediate i)
  | .ClearAc => .ok .ClearAc
  | .NoOp => .ok .NoOp

/-- The `for instr in self.text.iter()` loop of `Parser::address_program`:
resolve each instruction in order, stopping at the first failure. -/
def Parser.addressText (p : Parser) : List Instruction →
    Except ParseError (List AddressedInstruction)
  | [] => .ok []
  | instr :: rest =>
    match p.resolveInstr instr with
    | .error e => .error e
    | .ok a =>
      match p.addressText rest with
      | .error e => .error e
      | .ok l => .ok (a :: l)

/-- `Parser::address_program`: walk the text stream once, in order, failing
on the first unresolvable label; data is cloned unchanged. -/
def Parser.address_program (p : Parser) : Except ParseError AddressedProgram :=
  match p.addressText p.text with
  | .error e => .error e
  | .ok text => .ok { text := text, data := p.data }

/-! ### The recursive-descent driver

`Parser::parse_input` / `parse_text` / `parse_data` of `src/parser.rs`,
restructured over an explicit token/span stream.  The two section loops
become one recursive function over (section, stream); the one-token
operand parsers (`parse_label`, `parse_immediate`, `parse_number`) are
inlined as stream patterns, preserving their error messages and the span
discipline (`self.lexer.span()` is the span of the token most recently
taken from the stream, or of the peeked look-ahead token right after
`parse_number_list`, or `len..len` when the look-ahead hit end of input). -/

abbrev TokenStream := List (Token × Span)

/-- `Parser::parse_number_list` (with `parse_number` inlined): collect the
values of consecutive `.number <int>` pairs, leaving the look-ahead token in
the stream. -/
def parse_number_list : TokenStream → Except ParseError (List Int × TokenStream)
  | (Token.Number, _) :: (Token.NumLiteral v, _) :: rest =>
    match parse_number_list rest with
    | .error e => .error e
    | .ok (vs, rem) => .ok (v :: vs, rem)
  | (Token.Number, _) :: (other, sp) :: _ =>
    .error (.InvalidToken other.toDisplay "expected an integer" sp)
  | [(Token.Number, _)] => .error (.UnexpectedEof "expected an integer")
  | rest => .ok ([], rest)

/-- The `for number in ... { self.add_data(number)?; }` loop following
`parse_number_list` in `Parser::parse_data`. -/
def Parser.add_data_list (p : Parser) (vs : List Int) (span : Span) :
    Except ParseError Parser :=
  match vs with
  | [] => .ok p
  | v :: rest =>
    match p.add_data v span with
    | .error e => .error e
    | .ok p' => p'.add_data_list rest span

/-- Which section loop is running: `Parser::parse_text` or
`Parser::parse_data`. -/
inductive Mode where
  | text | data
deriving DecidableEq, Repr

/-- `Parser::parse_label`: consume one identifier token (returning also its
span, i.e. `self.lexer.span()` after the consumption). -/
def parse_label : TokenStream → Except ParseError (String × Span × TokenStream)
  | (Token.LabelIdent name, sp) :: rest => .ok (name, sp, rest)
  | (other, sp) :: _ => .error (.InvalidToken other.toDisplay "expected a label" sp)
  | [] => .error (.UnexpectedEof "expected a label")

/-- `Parser::parse_immediate`: consume one numeric literal and range-check it
against `i8::try_from` (−128..127), else `InvalidNumber`. -/
def parse_immediate : TokenStream → Except ParseError (Int × Span × TokenStream)
  | (Token.NumLiteral i, sp) :: rest =>
    if -128 ≤ i ∧ i ≤ 127 then .ok (i, sp, rest)
    else .error (.InvalidNumber i sp)
  | (other, sp) :: _ => .error (.InvalidToken other.toDisplay "expected an integer" sp)
  | [] => .error (.UnexpectedEof "expected an integer")

/-- The merged `Parser::parse_text` / `Parser::parse_data` loops.  `endSpan`
is the `len..len` span logos reports once the lexer is exhausted.  The `fuel`
argument only drives the recursion: every loop iteration consumes at least
one token, so the `fuel = length + 1` supplied by `parse_input` below can
never run out, and the out-of-fuel arm is unreachable. -/
def parse_sections (endSpan : Span) :
    Nat → Mode → TokenStream → Parser → Except ParseError Parser
  | 0, _, _, _ => .error (.UnexpectedEof "unreachable: out of fuel")
  | _ + 1, .text, [], p => .ok p
  | _ + 1, .data, [], p => .ok p
  -- `parse_text` loop body
  | fuel + 1, .text, (tok, sp) :: rest, p =>
    match tok with
    | .Label =>
      (match parse_label rest with
       | .error e => .error e
       | .ok (name, sp2, rest2) =>
         match p.add_text_label name sp2 with
         | .error e => .error e
         | .ok p2 => parse_sections endSpan fuel .text rest2 p2)
    | .Data => parse_sections endSpan fuel .data rest p
    | .Add =>
      (match parse_label rest with
       | .error e => .error e
       | .ok (l, sp2, rest2) =>
         match p.add_instr (.Add l) sp2 with
         | .error e => .error e
         | .ok p2 => parse_sections endSpan fuel .text rest2 p2)
    | .Subtract =>
      (match parse_label rest with
       | .error e => .error e
       | .ok (l, sp2, rest2) =>
         match p.add_instr (.Subtract l) sp2 with
         | .error e => .error e
         | .ok p2 => parse_sections endSpan fuel .text rest2 p2)
    | .Multiply =>
      (match parse_label rest with
       | .error e => .error e
       | .ok (l, sp2, rest2) =>
         match p.add_instr (.Multiply l) sp2 with
         | .error e => .error e
         | .ok p2 => parse_sections endSpan fuel .text rest2 p2)
    | .Divide =>
      (match parse_label rest with
       | .error e => .error e
       | .ok (l, sp2, rest2) =>
         match p.add_instr (.Divide l) sp2 with
         | .error e => .error e
         | .ok p2 => parse_sections endSpan fuel .text rest2 p2)
    | .Remainder =>
      (match parse_label rest with
       | .error e => .error e
       | .ok (l, sp2, rest2) =>
         match p.add_instr (.Remainder l) sp2 with
         | .error e => .error e
         | .ok p2 => parse_sections endSpan fuel .text rest2 p2)
    | .And =>
      (match parse_label rest with
       | .error e => .error e
       | .ok (l, sp2, rest2) =>
         match p.add_instr (.And l) sp2 with
         | .error e => .error e
         | .ok p2 => parse_sections endSpan fuel .text rest2 p2)
    | .AddImmediate =>
      (match parse_immediate rest with
       | .error e => .error e
       | .ok (i, sp2, rest2) =>
         match p.add_instr (.AddImmediate i) sp2 with
         | .error e => .error e
         | .ok p2 => parse_sections endSpan fuel .text rest2 p2)
    | .SubtractImmediate =>
      (match parse_immediate rest with
       | .error e => .error e
       | .ok (i, sp2, rest2) =>
         match p.add_instr (.SubtractImmediate i) sp2 with
         | .error e => .error e
         | .ok p2 => parse_sections endSpan fuel .text rest2 p2)
    | .MultiplyImmediate =>
      (match parse_immediate rest with
       | .error e => .error e
       | .ok (i, sp2, rest2) =>
         match p.add_instr (.MultiplyImmediate i) sp2 with
         | .error e => .error e
         | .ok p2 => parse_sections endSpan fuel .text rest2 p2)
    | .DivideImmediate =>
      (match parse_immediate rest with
       | .error e => .error e
       | .ok (i, sp2, rest2) =>
         match p.add_instr (.DivideImmediate i) sp2 with
         | .error e => .error e
         | .ok p2 => parse_sections endSpan fuel .text rest2 p2)
    | .RemainderImmediate =>
      (match parse_immediate rest with
       | .error e => .error e
       | .ok (i, sp2, rest2) =>
         match p.add_instr (.RemainderImmediate i) sp2 with
         | .error e => .error e
         | .ok p2 => parse_sections endSpan fuel .text rest2 p2)
    | .AndImmediate =>
      (match parse_immediate rest with
       | .error e => .error e
       | .ok (i, sp2, rest2) =>
         match p.add_instr (.AndImmediate i) sp2 with
         | .error e => .error e
         | .ok p2 => parse_sections endSpan fuel .text rest2 p2)
    | .Shift =>
      (match parse_immediate rest with
       | .error e => .error e
       | .ok (i, sp2, rest2) =>
         match p.add_instr (.Shift i) sp2 with
         | .error e => .error e
         | .ok p2 => parse_sections endSpan fuel .text rest2 p2)
    | .BranchZero =>
      (match parse_label rest with
       | .error e => .error e
       | .ok (l, sp2, rest2) =>
         match p.add_instr (.BranchZero l) sp2 with
         | .error e => .error e
         | .ok p2 => parse_sections endSpan fuel .text rest2 p2)
    | .Branch =>
      (match parse_label rest with
       | .error e => .error e
       | .ok (l, sp2, rest2) =>
         match p.add_instr (.Branch l) sp2 with
         | .error e => .error e
         | .ok p2 => parse_sections endSpan fuel .text rest2 p2)
    | .Store =>
      (match parse_label rest with
       | .error e => .error e
       | .ok (l, sp2, rest2) =>
         match p.add_instr (.Store l) sp2 with
         | .error e => .error e
         | .ok p2 => parse_sections endSpan fuel .text rest2 p2)
    | .ClearAc =>
      (match p.add_instr .ClearAc sp with
       | .error e => .error e
       | .ok p2 => parse_sections endSpan fuel .text rest p2)
    | .NoOp =>
      (match p.add_instr .NoOp sp with
       | .error e => .error e
       | .ok p2 => parse_sections endSpan fuel .text rest p2)
    | other =>
      .error (.InvalidToken other.toDisplay "expected mnemonic, label, or `.data`" sp)
  -- `parse_data` loop body
  | fuel + 1, .data, (tok, sp) :: rest, p =>
    match tok with
    | .Label =>
      (match parse_label rest with
       | .error e => .error e
       | .ok (name, sp2, rest2) =>
         match p.add_data_label name sp2 with
         | .error e => .error e
         | .ok p2 =>
           match parse_number_list rest2 with
           | .error e => .error e
           | .ok (vs, rem) =>
             match p2.add_data_list vs
                 (match rem with | (_, s) :: _ => s | [] => endSpan) with
             | .error e => .error e
             | .ok p3 => parse_sections endSpan fuel .data rem p3)
    | .Text => parse_sections endSpan fuel .text rest p
    | other => .error (.InvalidToken other.toDisplay "expected `.label`" sp)


def parse_input (endSpan : Span) (toks : TokenStream) (p : Parser) :
    Except ParseError Parser :=
  match toks with
  | [] => .error (.UnexpectedEof "expected `.text` or `.data`")
  | (Token.Text, _) :: rest => parse_sections endSpan (rest.length + 1) .text rest p
  | (Token.Data, _) :: rest => parse_sections endSpan (rest.length + 1) .data rest p
  | (other, sp) :: _ =>
    .error (.InvalidToken other.toDisplay "expected `.text` or `.data`" sp)

/-- `Parser::parse`: lex the input and run the section parser from an empty
state. -/
def Parser.parse (input : String) : Except ParseError Parser :=
  parse_input ⟨input.toList.length, input.toList.length⟩ (lex input)
    ⟨[], [], [], []⟩

/-- The `main.rs` pipeline around the core: `Parser::parse` then
`Parser::address_program`. -/
def assemble (input : String) : Except ParseError AddressedProgram :=
  match Parser.parse input with
  | .error e => .error e
  | .ok p => p.address_program

/-! ### Auxiliary definitions used by the statements below -/

/-- Iterated `Parser::add_instr` (as performed by successive mnemonic
parses): append the instructions in order, stopping at the first error. -/
def Parser.add_instr_list (p : Parser) (l : List Instruction) (span : Span) :
    Except ParseError Parser :=
  match l with
  | [] => .ok p
  | instr :: rest =>
    match p.add_instr instr span with
    | .error e => .error e
    | .ok p' => p'.add_instr_list rest span

/-- The immediate operand of a symbolic instruction, when it has one. -/
def Instruction.immediate? : Instruction → Option Int
  | .AddImmediate i | .SubtractImmediate i | .MultiplyImmediate i
  | .DivideImmediate i | .RemainderImmediate i | .Shift i
  | .AndImmediate i => some i
  | _ => none

/-- Whether a token is a numeric literal. -/
def Token.isNumLit : Token → Bool
  | .NumLiteral _ => true
  | _ => false

/-- A 256-instruction-site source: `br L`, 254 `noop`s, then a label defined
when the text stream already holds 255 entries. -/
def src255 : String :=
  ".text br L " ++ String.join (List.replicate 254 "noop ") ++ ".label L"

/-! ### Helper lemmas -/

/-- Each instruction encoding is exactly two bytes long. -/
theorem bytes_length (instr : AddressedInstruction) : instr.bytes.length = 2 := rfl

/-- Each data-word encoding is exactly two bytes long. -/
theorem i16ToBeBytes_length (v : Int) : (i16ToBeBytes v).length = 2 := rfl

/-- Arithmetic content of the big-endian data-word encoding: two bytes,
composing (high first) to the 16-bit two's-complement pattern of `v`. -/
theorem i16ToBeBytes_spec (v : Int) :
    (i16ToBeBytes v).headD 0 < 256 ∧ (i16ToBeBytes v).getLastD 0 < 256 ∧
      ((i16ToBeBytes v).headD 0 * 256 + (i16ToBeBytes v).getLastD 0 : Int) =
        v % 65536 := by
  have h0 : 0 ≤ v % 65536 := Int.emod_nonneg v (by norm_num)
  have h1 : v % 65536 < 65536 := Int.emod_lt_of_pos v (by norm_num)
  have h2 : (v % 65536).toNat < 65536 := by omega
  have hh : (i16ToBeBytes v).headD 0 = (v % 65536).toNat / 256 := rfl
  have hl : (i16ToBeBytes v).getLastD 0 = (v % 65536).toNat % 256 := rfl
  rw [hh, hl]
  refine ⟨by omega, by omega, by omega⟩

/-- `assemble_text` emits two bytes per instruction. -/
theorem assemble_text_length (p : AddressedProgram) :
    p.assemble_text.length = 2 * p.text.length := by
  unfold AddressedProgram.assemble_text
  induction p.text with
  | nil => rfl
  | cons a l ih =>
    simp only [List.flatMap_cons, List.length_append, ih, bytes_length,
      List.length_cons]
    omega

/-- `data_bytes` emits two bytes per data word. -/
theorem data_bytes_length (p : AddressedProgram) :
    p.data_bytes.length = 2 * p.data.length := by
  unfold AddressedProgram.data_bytes
  induction p.data with
  | nil => rfl
  | cons a l ih =>
    simp only [List.flatMap_cons, List.length_append, ih, i16ToBeBytes_length,
      List.length_cons]
    omega

/-- Below the ceiling, iterated appends succeed and concatenate. -/
theorem add_instr_list_ok :
    ∀ (l : List Instruction) (p : Parser) (sp : Span),
      p.text.length + l.length ≤ 255 →
      p.add_instr_list l sp = .ok { p with text := p.text ++ l } := by
  intro l
  induction l with
  | nil => intro p sp h; simp [Parser.add_instr_list]
  | cons instr rest ih =>
    intro p sp h
    simp only [List.length_cons] at h
    have hne : ¬ p.text.length = 255 := by omega
    simp only [Parser.add_instr_list, Parser.add_instr, if_neg hne]
    have := ih { p with text := p.text ++ [instr] } sp (by simp; omega)
    rw [this]
    simp

/-- Iterated appends split over concatenation. -/
theorem add_instr_list_append :
    ∀ (l1 l2 : List Instruction) (p : Parser) (sp : Span),
      p.add_instr_list (l1 ++ l2) sp =
        match p.add_instr_list l1 sp with
        | .error e => .error e
        | .ok p' => p'.add_instr_list l2 sp := by
  intro l1
  induction l1 with
  | nil => intro l2 p sp; simp [Parser.add_instr_list]
  | cons instr rest ih =>
    intro l2 p sp
    simp only [List.cons_append, Parser.add_instr_list]
    cases p.add_instr instr sp with
    | error e => simp
    | ok p' => simp [ih]

/-- Data analogue of `add_instr_list_ok`. -/
theorem add_data_list_ok :
    ∀ (l : List Int) (p : Parser) (sp : Span),
      p.data.length + l.length ≤ 255 →
      p.add_data_list l sp = .ok { p with data := p.data ++ l } := by
  intro l
  induction l with
  | nil => intro p sp h; simp [Parser.add_data_list]
  | cons d rest ih =>
    intro p sp h
    simp only [List.length_cons] at h
    have hne : ¬ p.data.length = 255 := by omega
    simp only [Parser.add_data_list, Parser.add_data, if_neg hne]
    have := ih { p with data := p.data ++ [d] } sp (by simp; omega)
    rw [this]
    simp

/-- Data analogue of `add_instr_list_append`. -/
theorem add_data_list_append :
    ∀ (l1 l2 : List Int) (p : Parser) (sp : Span),
      p.add_data_list (l1 ++ l2) sp =
        match p.add_data_list l1 sp with
        | .error e => .error e
        | .ok p' => p'.add_data_list l2 sp := by
  intro l1
  induction l1 with
  | nil => intro l2 p sp; simp [Parser.add_data_list]
  | cons d rest ih =>
    intro l2 p sp
    simp only [List.cons_append, Parser.add_data_list]
    cases p.add_data d sp with
    | error e => simp
    | ok p' => simp [ih]

/-! ### Claim theorems -/

/-- C1: assembling `.data\n .label X\n .number 5\n .number 7\n.text\n add X\n
clac\n` succeeds; the Program Image has data bytes `[0x00,0x05,0x00,0x07]`
and text bytes `[0x20,0x00,0x30,0x00]`; `add X` resolves to data address 0
with opcode 2 / alu-op 0 / operand 0, and `clac` has opcode 3 / alu-op 0 /
value 0. -/
theorem c1_end_to_end :
    assemble ".data\n .label X\n .number 5\n .number 7\n.text\n add X\n clac\n" =
      .ok { text := [.Add 0, .ClearAc], data := [5, 7] } ∧
    (AddressedProgram.mk [.Add 0, .ClearAc] [5, 7]).data_bytes =
      [0x00, 0x05, 0x00, 0x07] ∧
    (AddressedProgram.mk [.Add 0, .ClearAc] [5, 7]).assemble_text =
      [0x20, 0x00, 0x30, 0x00] ∧
    (AddressedInstruction.Add 0).opcode = 2 ∧
    (AddressedInstruction.Add 0).alu_op = 0 ∧
    (AddressedInstruction.Add 0).value = 0 ∧
    AddressedInstruction.ClearAc.opcode = 3 ∧
    AddressedInstruction.ClearAc.alu_op = 0 ∧
    AddressedInstruction.ClearAc.value = 0 :=
  ⟨rfl, rfl, rfl, rfl, rfl, rfl, rfl, rfl, rfl⟩

/-- C2: every resolved instruction encodes as exactly the two bytes
`[(opcode << 4) | alu_op, operand]` with the claimed opcode and ALU-op
tables (address operands pass through; immediates appear as their
two's-complement byte `(i % 256)`), and every data word encodes as two
big-endian bytes of its 16-bit two's-complement pattern. -/
theorem c2_encoding_table :
    (∀ a, (AddressedInstruction.Add a).bytes = [0x20, a]) ∧
    (∀ a, (AddressedInstruction.Subtract a).bytes = [0x21, a]) ∧
    (∀ a, (AddressedInstruction.Multiply a).bytes = [0x22, a]) ∧
    (∀ a, (AddressedInstruction.Divide a).bytes = [0x23, a]) ∧
    (∀ a, (AddressedInstruction.Remainder a).bytes = [0x24, a]) ∧
    (∀ a, (AddressedInstruction.And a).bytes = [0x25, a]) ∧
    (∀ i, (AddressedInstruction.AddImmediate i).bytes = [0x10, (i % 256).toNat]) ∧
    (∀ i, (AddressedInstruction.SubtractImmediate i).bytes = [0x11, (i % 256).toNat]) ∧
    (∀ i, (AddressedInstruction.MultiplyImmediate i).bytes = [0x12, (i % 256).toNat]) ∧
    (∀ i, (AddressedInstruction.DivideImmediate i).bytes = [0x13, (i % 256).toNat]) ∧
    (∀ i, (AddressedInstruction.RemainderImmediate i).bytes = [0x14, (i % 256).toNat]) ∧
    (∀ i, (AddressedInstruction.AndImmediate i).bytes = [0x15, (i % 256).toNat]) ∧
    (∀ i, (AddressedInstruction.Shift i).bytes = [0x16, (i % 256).toNat]) ∧
    AddressedInstruction.NoOp.bytes = [0x00, 0x00] ∧
    AddressedInstruction.ClearAc.bytes = [0x30, 0x00] ∧
    (∀ a, (AddressedInstruction.Store a).bytes = [0x40, a]) ∧
    (∀ a, (AddressedInstruction.BranchZero a).bytes = [0x50, a]) ∧
    (∀ a, (AddressedInstruction.Branch a).bytes = [0x60, a]) ∧
    (∀ instr : AddressedInstruction, instr.bytes.length = 2) ∧
    (∀ v : Int,
      (i16ToBeBytes v).length = 2 ∧
      (i16ToBeBytes v).headD 0 < 256 ∧ (i16ToBeBytes v).getLastD 0 < 256 ∧
      ((i16ToBeBytes v).headD 0 * 256 + (i16ToBeBytes v).getLastD 0 : Int) =
        v % 65536) :=
  by
  repeat' apply And.intro
  all_goals intros
  all_goals first
    | rfl
    | exact ⟨i16ToBeBytes_length _, (i16ToBeBytes_spec _).1,
        (i16ToBeBytes_spec _).2.1, (i16ToBeBytes_spec _).2.2⟩
    | simp [AddressedInstruction.bytes, AddressedInstruction.opcode,
        AddressedInstruction.alu_op, AddressedInstruction.value]

/-- C3 counterexample: the claim asserts `addi -128` parses successfully,
but the lexical grammar has no sign, so `-` lexes as an `Error` token and
`Parser::parse` rejects the program with `InvalidToken`, not success. -/
theorem c3_counterexample :
    Parser.parse ".text\n addi -128\n" =
      .error (.InvalidToken "Error" "expected an integer" ⟨12, 13⟩) := rfl

/-- C3 amended: `addi 127` parses with operand byte `0x7f` and `addi 128`
fails with `InvalidNumber`, as claimed; but `addi -128` is rejected with
`InvalidToken` (the numeric-literal grammar admits no sign), while the
encoder itself would map an immediate of −128 to operand byte `0x80`. -/
theorem c3_amended :
    Parser.parse ".text\n addi 127\n" =
      .ok { text := [.AddImmediate 127], data := [],
            text_labels := [], data_labels := [] } ∧
    (AddressedInstruction.AddImmediate 127).bytes = [0x10, 0x7f] ∧
    Parser.parse ".text\n addi 128\n" = .error (.InvalidNumber 128 ⟨12, 15⟩) ∧
    Parser.parse ".text\n addi -128\n" =
      .error (.InvalidToken "Error" "expected an integer" ⟨12, 13⟩) ∧
    (AddressedInstruction.AddImmediate (-128)).bytes = [0x10, 0x80] :=
  ⟨rfl, rfl, rfl, rfl, rfl⟩

/-- C8: the first output byte decodes back to the encoder's classification
(`bytes()[0] >> 4 == opcode()` and `bytes()[0] & 0xF == alu_op()`), and the
serialized streams have exactly twice as many bytes as entries. -/
theorem c8_roundtrip_and_lengths :
    (∀ instr : AddressedInstruction,
        instr.bytes.headD 0 >>> 4 = instr.opcode ∧
        instr.bytes.headD 0 &&& 0xF = instr.alu_op) ∧
    (∀ prog : AddressedProgram,
        prog.assemble_text.length = 2 * prog.text.length ∧
        prog.data_bytes.length = 2 * prog.data.length) := by
  constructor
  · intro instr
    cases instr <;>
      refine ⟨?_, ?_⟩ <;>
      simp only [AddressedInstruction.bytes, AddressedInstruction.opcode,
        AddressedInstruction.alu_op, AddressedInstruction.value,
        List.headD_cons] <;>
      decide
  · intro prog
    exact ⟨assemble_text_length prog, data_bytes_length prog⟩

/-- C4: `add_text_label` records the current text length (the address of the
next instruction) at definition time, `current_text` being exactly
`text.len() as u8`; consequently forward references work: in
`.text\n br L\n noop\n .label L\n noop` the `br` operand resolves to
address 2. -/
theorem c4_forward_reference :
    (∀ (p : Parser) (name : String) (sp : Span),
        lookupLabel p.text_labels name = none →
        p.add_text_label name sp =
          .ok { p with text_labels := (name, p.current_text, sp) :: p.text_labels }) ∧
    (∀ p : Parser, p.current_text = p.text.length % 256) ∧
    assemble ".text\n br L\n noop\n .label L\n noop" =
      .ok { text := [.Branch 2, .NoOp, .NoOp], data := [] } := by
  refine ⟨?_, fun p => rfl, rfl⟩
  intro p name sp h
  simp [Parser.add_text_label, h]

/-- C4 witness: defining a fresh label in a two-instruction state records
address 2. -/
theorem c4_forward_reference_witness :
    (Parser.mk [.NoOp, .NoOp] [] [] []).add_text_label "L" ⟨1, 2⟩ =
      .ok (Parser.mk [.NoOp, .NoOp] [] [("L", 2, ⟨1, 2⟩)] []) :=
  c4_forward_reference.1 (Parser.mk [.NoOp, .NoOp] [] [] []) "L" ⟨1, 2⟩ rfl

/-- C5: redefining a name in the same label space fails with
`DuplicateLabel` carrying the first definition's span and the new one's
(and returns no state, so nothing is overwritten); two `.label X` in
`.data` are rejected, while the same name once in text-space and once in
data-space parses fine because the tables are independent. -/
theorem c5_duplicate_label :
    (∀ (p : Parser) (name : String) (sp sp0 : Span) (a : Nat),
        lookupLabel p.text_labels name = some (a, sp0) →
        p.add_text_label name sp = .error (.DuplicateLabel name sp0 sp)) ∧
    (∀ (p : Parser) (name : String) (sp sp0 : Span) (a : Nat),
        lookupLabel p.data_labels name = some (a, sp0) →
        p.add_data_label name sp = .error (.DuplicateLabel name sp0 sp)) ∧
    Parser.parse ".data\n .label X\n .label X" =
      .error (.DuplicateLabel "X" ⟨14, 15⟩ ⟨24, 25⟩) ∧
    Parser.parse ".data\n .label X\n.text\n .label X" =
      .ok { text := [], data := [],
            text_labels := [("X", 0, ⟨30, 31⟩)],
            data_labels := [("X", 0, ⟨14, 15⟩)] } := by
  refine ⟨?_, ?_, rfl, rfl⟩ <;>
    (intro p name sp sp0 a h
     simp [Parser.add_text_label, Parser.add_data_label, h])

/-- C5 witness: a concrete duplicate definition in each space fails with
both spans. -/
theorem c5_duplicate_label_witness :
    (Parser.mk [] [] [("X", 3, ⟨1, 2⟩)] []).add_text_label "X" ⟨5, 6⟩ =
      .error (.DuplicateLabel "X" ⟨1, 2⟩ ⟨5, 6⟩) ∧
    (Parser.mk [] [] [] [("Y", 0, ⟨3, 4⟩)]).add_data_label "Y" ⟨7, 8⟩ =
      .error (.DuplicateLabel "Y" ⟨3, 4⟩ ⟨7, 8⟩) :=
  ⟨c5_duplicate_label.1 (Parser.mk [] [] [("X", 3, ⟨1, 2⟩)] []) "X" ⟨5, 6⟩ ⟨1, 2⟩ 3 rfl,
   c5_duplicate_label.2.1 (Parser.mk [] [] [] [("Y", 0, ⟨3, 4⟩)]) "Y" ⟨7, 8⟩ ⟨3, 4⟩ 0 rfl⟩

/-- C6: each stream has a hard 255-entry ceiling: an append below it
succeeds and pushes, an append at exactly 255 entries fails with
`InstructionOverflow`/`DataOverflow`; iterating from empty, 255 appends
succeed and the 256th fails; and successful appends never push the length
past 255, so no instruction ever sits at address 255. -/
theorem c6_stream_ceilings :
    (∀ (p : Parser) (instr : Instruction) (sp : Span),
        p.text.length < 255 →
        p.add_instr instr sp = .ok { p with text := p.text ++ [instr] }) ∧
    (∀ (p : Parser) (instr : Instruction) (sp : Span),
        p.text.length = 255 →
        p.add_instr instr sp = .error (.InstructionOverflow instr.debugString sp)) ∧
    (∀ (p : Parser) (d : Int) (sp : Span),
        p.data.length < 255 →
        p.add_data d sp = .ok { p with data := p.data ++ [d] }) ∧
    (∀ (p : Parser) (d : Int) (sp : Span),
        p.data.length = 255 →
        p.add_data d sp = .error (.DataOverflow (toString d) sp)) ∧
    (∀ sp, (Parser.mk [] [] [] []).add_instr_list (List.replicate 255 .NoOp) sp =
        .ok (Parser.mk (List.replicate 255 .NoOp) [] [] [])) ∧
    (∀ sp, (Parser.mk [] [] [] []).add_instr_list (List.replicate 256 .NoOp) sp =
        .error (.InstructionOverflow "NoOp" sp)) ∧
    (∀ sp, (Parser.mk [] [] [] []).add_data_list (List.replicate 255 (0 : Int)) sp =
        .ok (Parser.mk [] (List.replicate 255 (0 : Int)) [] [])) ∧
    (∀ sp, (Parser.mk [] [] [] []).add_data_list (List.replicate 256 (0 : Int)) sp =
        .error (.DataOverflow "0" sp)) ∧
    (∀ (p p' : Parser) (instr : Instruction) (sp : Span),
        p.add_instr instr sp = .ok p' → p.text.length ≤ 255 →
        p'.text.length ≤ 255) := by
  refine ⟨?_, ?_, ?_, ?_, ?_, ?_, ?_, ?_, ?_⟩
  · intro p instr sp h
    simp only [Parser.add_instr, if_neg (by omega : ¬ p.text.length = 255)]
  · intro p instr sp h
    simp only [Parser.add_instr, if_pos h]
  · intro p d sp h
    simp only [Parser.add_data, if_neg (by omega : ¬ p.data.length = 255)]
  · intro p d sp h
    simp only [Parser.add_data, if_pos h]
  · intro sp
    have := add_instr_list_ok (List.replicate 255 .NoOp) ⟨[], [], [], []⟩ sp
      (by simp)
    simpa using this
  · intro sp
    rw [show (256 : Nat) = 255 + 1 from rfl, List.replicate_succ',
      add_instr_list_append,
      add_instr_list_ok (List.replicate 255 .NoOp) ⟨[], [], [], []⟩ sp (by simp)]
    simp [Parser.add_instr_list, Parser.add_instr, Instruction.debugString]
  · intro sp
    have := add_data_list_ok (List.replicate 255 (0 : Int)) ⟨[], [], [], []⟩ sp
      (by simp)
    simpa using this
  · intro sp
    rw [show (256 : Nat) = 255 + 1 from rfl, List.replicate_succ',
      add_data_list_append,
      add_data_list_ok (List.replicate 255 (0 : Int)) ⟨[], [], [], []⟩ sp (by simp)]
    have h0 : toString (0 : Int) = "0" := by decide
    simp [Parser.add_data_list, Parser.add_data, h0]
  · intro p p' instr sp h hle
    simp only [Parser.add_instr] at h
    split at h
    · exact absurd h (by simp)
    · rename_i hne
      cases h
      simp
      omega

/-- C6 witness: concrete appends at lengths 0 and 255 in both streams. -/
theorem c6_stream_ceilings_witness :
    (Parser.mk [] [] [] []).add_instr .NoOp ⟨0, 0⟩ =
      .ok (Parser.mk [.NoOp] [] [] []) ∧
    (Parser.mk (List.replicate 255 .NoOp) [] [] []).add_instr .NoOp ⟨0, 0⟩ =
      .error (.InstructionOverflow "NoOp" ⟨0, 0⟩) ∧
    (Parser.mk [] [] [] []).add_data 1 ⟨0, 0⟩ =
      .ok (Parser.mk [] [1] [] []) ∧
    (Parser.mk [] (List.replicate 255 (0 : Int)) [] []).add_data 1 ⟨0, 0⟩ =
      .error (.DataOverflow "1" ⟨0, 0⟩) ∧
    (Parser.mk [.NoOp] [] [] []).text.length ≤ 255 :=
  ⟨c6_stream_ceilings.1 (Parser.mk [] [] [] []) .NoOp ⟨0, 0⟩ (by decide),
   c6_stream_ceilings.2.1 (Parser.mk (List.replicate 255 .NoOp) [] [] [])
     .NoOp ⟨0, 0⟩ (by simp),
   c6_stream_ceilings.2.2.1 (Parser.mk [] [] [] []) 1 ⟨0, 0⟩ (by decide),
   c6_stream_ceilings.2.2.2.1 (Parser.mk [] (List.replicate 255 (0 : Int)) [] [])
     1 ⟨0, 0⟩ (by simp),
   c6_stream_ceilings.2.2.2.2.2.2.2.2 (Parser.mk [] [] [] [])
     (Parser.mk [.NoOp] [] [] []) .NoOp ⟨0, 0⟩ rfl (by decide)⟩

/-- C10: defining a label while its stream holds exactly 255 entries
succeeds and records address 255, and the accepted program
`.text br L noop*254 .label L` resolves the branch operand to 255 — an
address holding no instruction (the text stream has length 255, indices
0–254) and no data word. -/
theorem c10_label_at_255 :
    (∀ (p : Parser) (name : String) (sp : Span),
        lookupLabel p.text_labels name = none → p.text.length = 255 →
        p.add_text_label name sp =
          .ok { p with text_labels := (name, 255, sp) :: p.text_labels }) ∧
    (Parser.parse src255).toOption.map (fun p => p.text_label_address "L") =
      some (some 255) ∧
    (assemble src255).toOption.map
        (fun img => (img.text.headD .NoOp, img.text.length, img.data.length)) =
      some (.Branch 255, 255, 0) := by
  refine ⟨?_, by decide, by decide⟩
  intro p name sp h hlen
  simp [Parser.add_text_label, h, Parser.current_text, hlen]

/-- C10 witness: a concrete 255-entry state accepts a fresh label at
address 255. -/
theorem c10_label_at_255_witness :
    (Parser.mk (List.replicate 255 .NoOp) [] [] []).add_text_label "L" ⟨9, 10⟩ =
      .ok (Parser.mk (List.replicate 255 .NoOp) [] [("L", 255, ⟨9, 10⟩)] []) :=
  c10_label_at_255.1 (Parser.mk (List.replicate 255 .NoOp) [] [] []) "L" ⟨9, 10⟩
    rfl (by simp)

/-- A successful addressing pass resolves elementwise, in order. -/
theorem addressText_ok_forall2 (p : Parser) :
    ∀ (l : List Instruction) (l' : List AddressedInstruction),
      p.addressText l = .ok l' →
      List.Forall₂ (fun i a => p.resolveInstr i = .ok a) l l' := by
  intro l
  induction l with
  | nil =>
    intro l' h
    simp only [Parser.addressText, Except.ok.injEq] at h
    subst h
    exact List.Forall₂.nil
  | cons a rest ih =>
    intro l' h
    simp only [Parser.addressText] at h
    cases hfa : p.resolveInstr a with
    | error e => rw [hfa] at h; simp at h
    | ok b =>
      rw [hfa] at h
      cases hrest : p.addressText rest with
      | error e => rw [hrest] at h; simp at h
      | ok bs =>
        rw [hrest] at h
        simp only [Except.ok.injEq] at h
        subst h
        exact List.Forall₂.cons hfa (ih bs hrest)

/-- A failing addressing pass fails on the resolution of some element. -/
theorem addressText_error_exists (p : Parser) :
    ∀ (l : List Instruction) (e : ParseError),
      p.addressText l = .error e →
      ∃ instr ∈ l, p.resolveInstr instr = .error e := by
  intro l
  induction l with
  | nil => intro e h; simp [Parser.addressText] at h
  | cons a rest ih =>
    intro e h
    simp only [Parser.addressText] at h
    cases hfa : p.resolveInstr a with
    | error e0 =>
      rw [hfa] at h
      simp only [Except.error.injEq] at h
      subst h
      exact ⟨a, List.mem_cons_self a rest, hfa⟩
    | ok b =>
      rw [hfa] at h
      cases hrest : p.addressText rest with
      | error e0 =>
        rw [hrest] at h
        simp only [Except.error.injEq] at h
        subst h
        obtain ⟨instr, hmem, hres⟩ := ih e0 hrest
        exact ⟨instr, List.mem_cons_of_mem a hmem, hres⟩
      | ok bs => rw [hrest] at h; simp at h

/-- An unresolvable element makes the whole pass fail. -/
theorem mem_error_addressText_error (p : Parser) :
    ∀ (l : List Instruction) (instr : Instruction) (e : ParseError),
      instr ∈ l → p.resolveInstr instr = .error e →
      ∃ e', p.addressText l = .error e' := by
  intro l
  induction l with
  | nil => intro instr e hmem _; exact absurd hmem (List.not_mem_nil instr)
  | cons a rest ih =>
    intro instr e hmem he
    cases hfa : p.resolveInstr a with
    | error e0 => exact ⟨e0, by simp [Parser.addressText, hfa]⟩
    | ok b =>
      rcases List.mem_cons.mp hmem with rfl | hmem2
      · rw [hfa] at he; exact absurd he (by simp)
      · obtain ⟨e2, he2⟩ := ih instr e hmem2 he
        exact ⟨e2, by simp [Parser.addressText, hfa, he2]⟩

/-- `resolveInstr` only ever fails with `UnknownLabel`. -/
theorem resolveInstr_error_shape (p : Parser) (i : Instruction) (e : ParseError)
    (h : p.resolveInstr i = .error e) : ∃ label, e = .UnknownLabel label := by
  cases i <;> simp only [Parser.resolveInstr] at h <;>
    first
    | exact absurd h (by simp)
    | (split at h
       · exact absurd h (by simp)
       · simp only [Except.error.injEq] at h
         exact ⟨_, h.symm⟩)

/-- C7: the addressing pass walks the text stream once in order, resolving
every label operand against the space its instruction kind mandates
(data-space for the six ALU-register forms and `stor`, text-space for
`beqz`/`br`), passing immediate and zero-operand instructions and all data
through unchanged, and failing the whole pass with `UnknownLabel` — with no
partial output — when a referenced label is undefined in that space. -/
theorem c7_addressing_pass :
    (∀ (p : Parser) (img : AddressedProgram),
        p.address_program = .ok img →
        img.data = p.data ∧
        List.Forall₂ (fun i a => p.resolveInstr i = .ok a) p.text img.text) ∧
    (∀ (p : Parser) (e : ParseError),
        p.address_program = .error e →
        ∃ label, e = .UnknownLabel label ∧
          ∃ instr ∈ p.text, p.resolveInstr instr = .error (.UnknownLabel label)) ∧
    (∀ (p : Parser) (instr : Instruction), instr ∈ p.text →
        (∃ e, p.resolveInstr instr = .error e) →
        ∃ label, p.address_program = .error (.UnknownLabel label)) ∧
    (∀ (p : Parser) (l : String), p.resolveInstr (.Add l) =
        (match p.data_label_address l with
         | some a => .ok (.Add a) | none => .error (.UnknownLabel l))) ∧
    (∀ (p : Parser) (l : String), p.resolveInstr (.Subtract l) =
        (match p.data_label_address l with
         | some a => .ok (.Subtract a) | none => .error (.UnknownLabel l))) ∧
    (∀ (p : Parser) (l : String), p.resolveInstr (.Multiply l) =
        (match p.data_label_address l with
         | some a => .ok (.Multiply a) | none => .error (.UnknownLabel l))) ∧
    (∀ (p : Parser) (l : String), p.resolveInstr (.Divide l) =
        (match p.data_label_address l with
         | some a => .ok (.Divide a) | none => .error (.UnknownLabel l))) ∧
    (∀ (p : Parser) (l : String), p.resolveInstr (.Remainder l) =
        (match p.data_label_address l with
         | some a => .ok (.Remainder a) | none => .error (.UnknownLabel l))) ∧
    (∀ (p : Parser) (l : String), p.resolveInstr (.And l) =
        (match p.data_label_address l with
         | some a => .ok (.And a) | none => .error (.UnknownLabel l))) ∧
    (∀ (p : Parser) (l : String), p.resolveInstr (.Store l) =
        (match p.data_label_address l with
         | some a => .ok (.Store a) | none => .error (.UnknownLabel l))) ∧
    (∀ (p : Parser) (l : String), p.resolveInstr (.BranchZero l) =
        (match p.text_label_address l with
         | some a => .ok (.BranchZero a) | none => .error (.UnknownLabel l))) ∧
    (∀ (p : Parser) (l : String), p.resolveInstr (.Branch l) =
        (match p.text_label_address l with
         | some a => .ok (.Branch a) | none => .error (.UnknownLabel l))) ∧
    (∀ (p : Parser) (i : Int),
        p.resolveInstr (.AddImmediate i) = .ok (.AddImmediate i)) ∧
    (∀ (p : Parser) (i : Int),
        p.resolveInstr (.SubtractImmediate i) = .ok (.SubtractImmediate i)) ∧
    (∀ (p : Parser) (i : Int),
        p.resolveInstr (.MultiplyImmediate i) = .ok (.MultiplyImmediate i)) ∧
    (∀ (p : Parser) (i : Int),
        p.resolveInstr (.DivideImmediate i) = .ok (.DivideImmediate i)) ∧
    (∀ (p : Parser) (i : Int),
        p.resolveInstr (.RemainderImmediate i) = .ok (.RemainderImmediate i)) ∧
    (∀ (p : Parser) (i : Int), p.resolveInstr (.Shift i) = .ok (.Shift i)) ∧
    (∀ (p : Parser) (i : Int),
        p.resolveInstr (.AndImmediate i) = .ok (.AndImmediate i)) ∧
    (∀ p : Parser, p.resolveInstr .ClearAc = .ok .ClearAc) ∧
    (∀ p : Parser, p.resolveInstr .NoOp = .ok .NoOp) := by
  refine ⟨?_, ?_, ?_, fun p l => rfl, fun p l => rfl, fun p l => rfl,
    fun p l => rfl, fun p l => rfl, fun p l => rfl, fun p l => rfl,
    fun p l => rfl, fun p l => rfl, fun p i => rfl, fun p i => rfl,
    fun p i => rfl, fun p i => rfl, fun p i => rfl, fun p i => rfl,
    fun p i => rfl, fun p => rfl, fun p => rfl⟩
  · intro p img h
    unfold Parser.address_program at h
    split at h
    · exact absurd h (by simp)
    · rename_i text heq
      simp only [Except.ok.injEq] at h
      subst h
      exact ⟨rfl, addressText_ok_forall2 p p.text text heq⟩
  · intro p e h
    unfold Parser.address_program at h
    split at h
    · rename_i e0 heq
      simp only [Except.error.injEq] at h
      subst h
      obtain ⟨instr, hmem, hres⟩ := addressText_error_exists p p.text e0 heq
      obtain ⟨label, rfl⟩ := resolveInstr_error_shape p instr e0 hres
      exact ⟨label, rfl, instr, hmem, hres⟩
    · exact absurd h (by simp)
  · intro p instr hmem he
    obtain ⟨e, he⟩ := he
    obtain ⟨e', he'⟩ := mem_error_addressText_error p p.text instr e hmem he
    obtain ⟨instr2, _, hres2⟩ := addressText_error_exists p p.text e' he'
    obtain ⟨label, rfl⟩ := resolveInstr_error_shape p instr2 e' hres2
    refine ⟨label, ?_⟩
    unfold Parser.address_program
    rw [he']

/-- C7 witness: a two-instruction program resolves elementwise against the
data-space table, and a branch to an undefined label fails the pass with
`UnknownLabel`. -/
theorem c7_addressing_pass_witness :
    ((AddressedProgram.mk [.Add 0, .ClearAc] [42]).data =
        (Parser.mk [.Add "X", .ClearAc] [42] [] [("X", 0, ⟨1, 2⟩)]).data ∧
      List.Forall₂
        (fun i a =>
          (Parser.mk [.Add "X", .ClearAc] [42] [] [("X", 0, ⟨1, 2⟩)]).resolveInstr i =
            .ok a)
        (Parser.mk [.Add "X", .ClearAc] [42] [] [("X", 0, ⟨1, 2⟩)]).text
        (AddressedProgram.mk [.Add 0, .ClearAc] [42]).text) ∧
    (∃ label, ParseError.UnknownLabel "Z" = .UnknownLabel label ∧
      ∃ instr ∈ (Parser.mk [.Branch "Z"] [] [] []).text,
        (Parser.mk [.Branch "Z"] [] [] []).resolveInstr instr =
          .error (.UnknownLabel label)) ∧
    (∃ label, (Parser.mk [.Branch "Z"] [] [] []).address_program =
        .error (.UnknownLabel label)) :=
  ⟨c7_addressing_pass.1 (Parser.mk [.Add "X", .ClearAc] [42] [] [("X", 0, ⟨1, 2⟩)])
      (AddressedProgram.mk [.Add 0, .ClearAc] [42]) rfl,
   c7_addressing_pass.2.1 (Parser.mk [.Branch "Z"] [] [] [])
      (ParseError.UnknownLabel "Z") rfl,
   c7_addressing_pass.2.2.1 (Parser.mk [.Branch "Z"] [] [] []) (.Branch "Z")
      (by simp) ⟨.UnknownLabel "Z", rfl⟩⟩

/-- The numeric-literal callback only yields nonnegative payloads (the
lexical form is unsigned). -/
theorem numTok_nonneg (n : Nat) (i : Int) (h : numTok n = .NumLiteral i) :
    0 ≤ i := by
  unfold numTok at h
  split at h
  · simp only [Token.NumLiteral.injEq] at h
    subst h
    exact Int.ofNat_nonneg n
  · exact absurd h (by simp)

/-- A keyword match never yields a numeric literal. -/
theorem longestKw_not_numlit (cs : List Char) (l : Nat) (t : Token)
    (h : longestKw cs = some (l, t)) : t.isNumLit = false := by
  have H : ∀ (kts : List (List Char × Token)),
      (∀ kt ∈ kts, (kt : List Char × Token).2.isNumLit = false) →
      ∀ (init : Option (Nat × Token)),
        (∀ l0 t0, init = some (l0, t0) → Token.isNumLit t0 = false) →
        ∀ l0 t0, kts.foldl (kwStep cs) init = some (l0, t0) →
          Token.isNumLit t0 = false := by
    intro kts
    induction kts with
    | nil => intro _ init hinit l0 t0 h0; exact hinit l0 t0 h0
    | cons kt rest ih =>
      intro hall init hinit l0 t0 h0
      refine ih (fun x hx => hall x (List.mem_cons_of_mem kt hx)) _ ?_ l0 t0 h0
      intro l1 t1 h1
      unfold kwStep at h1
      split at h1
      · split at h1
        · simp only [Option.some.injEq, Prod.mk.injEq] at h1
          exact h1.2 ▸ hall kt (List.mem_cons_self kt rest)
        · rename_i l2 t2
          split at h1 <;>
            (simp only [Option.some.injEq, Prod.mk.injEq] at h1
             first
             | exact h1.2 ▸ hall kt (List.mem_cons_self kt rest)
             | exact h1.2 ▸ hinit l2 t2 rfl)
      · exact hinit l1 t1 h1
  exact H keywordToks (by decide) none (by simp) l t h

/-- Every candidate match carrying a numeric literal carries a nonnegative
one. -/
theorem candList_numlit_nonneg (cs : List Char) (c : Cand)
    (hc : c ∈ candList cs) : ∀ i, c.tok = .NumLiteral i → 0 ≤ i := by
  intro i htok
  unfold candList at hc
  rcases List.mem_append.mp hc with hc1 | hident
  rcases List.mem_append.mp hc1 with hc2 | hdec
  rcases List.mem_append.mp hc2 with hkw | hhex
  · split at hkw
    · rename_i l t hkweq
      simp only [List.mem_singleton] at hkw
      subst hkw
      have hlt := longestKw_not_numlit cs l t hkweq
      have ht : t = Token.NumLiteral i := htok
      rw [ht] at hlt
      simp [Token.isNumLit] at hlt
    · exact absurd hkw (by simp)
  · split at hhex
    · rename_i rest
      split at hhex
      · simp only [List.mem_singleton] at hhex
        subst hhex
        exact numTok_nonneg _ i htok
      · exact absurd hhex (by simp)
    · exact absurd hhex (by simp)
  · split at hdec
    · simp only [List.mem_singleton] at hdec
      subst hdec
      exact numTok_nonneg _ i htok
    · exact absurd hdec (by simp)
  · split at hident
    · simp only [List.mem_singleton] at hident
      subst hident
      exact absurd htok (by simp)
    · exact absurd hident (by simp)

/-- `betterCand` returns one of its arguments. -/
theorem betterCand_cases (a b : Cand) : betterCand a b = a ∨ betterCand a b = b := by
  unfold betterCand
  split
  · exact Or.inr rfl
  · split
    · exact Or.inr rfl
    · exact Or.inl rfl

/-- The selected candidate still carries a nonnegative literal, if any. -/
theorem bestCand_numlit_nonneg (cs : List Char) (c : Cand)
    (hc : bestCand cs = some c) : ∀ i, c.tok = .NumLiteral i → 0 ≤ i := by
  have hfold : ∀ (l : List Cand) (acc : Cand),
      (∀ i, acc.tok = .NumLiteral i → 0 ≤ i) →
      (∀ x ∈ l, ∀ i, (x : Cand).tok = .NumLiteral i → 0 ≤ i) →
      ∀ i, (l.foldl betterCand acc).tok = .NumLiteral i → 0 ≤ i := by
    intro l
    induction l with
    | nil => intro acc hacc _ i h; exact hacc i h
    | cons x rest ih =>
      intro acc hacc hall i h
      refine ih (betterCand acc x) ?_
        (fun y hy => hall y (List.mem_cons_of_mem x hy)) i h
      rcases betterCand_cases acc x with heq | heq <;> rw [heq]
      · exact hacc
      · exact hall x (List.mem_cons_self x rest)
  unfold bestCand at hc
  split at hc
  · exact absurd hc (by simp)
  · rename_i c0 rest hlist
    simp only [Option.some.injEq] at hc
    subst hc
    refine hfold rest c0 ?_ ?_
    · exact candList_numlit_nonneg cs c0 (hlist ▸ List.mem_cons_self c0 rest)
    · intro x hx
      exact candList_numlit_nonneg cs x (hlist ▸ List.mem_cons_of_mem c0 hx)

/-- Every numeric-literal token the lexer emits is nonnegative. -/
theorem lexGo_numlit_nonneg :
    ∀ (fuel : Nat) (cs : List Char) (pos : Nat) (tk : Token × Span),
      tk ∈ lexGo fuel cs pos → ∀ i, tk.1 = .NumLiteral i → 0 ≤ i := by
  intro fuel
  induction fuel with
  | zero => intro cs pos tk htk; simp [lexGo] at htk
  | succ fuel ih =>
    intro cs pos tk htk i hi
    match cs with
    | [] => simp [lexGo] at htk
    | c :: rest =>
      rw [lexGo] at htk
      split at htk
      · exact ih _ _ tk htk i hi
      · split at htk
        · exact ih _ _ tk htk i hi
        · split at htk
          · rename_i cand hbest
            rcases List.mem_cons.mp htk with rfl | htl
            · exact bestCand_numlit_nonneg (c :: rest) cand hbest i hi
            · exact ih _ _ tk htl i hi
          · rcases List.mem_cons.mp htk with rfl | htl
            · exact absurd hi (by simp)
            · exact ih _ _ tk htl i hi

/-- Every numeric-literal token in `lex input` is nonnegative. -/
theorem lex_numlit_nonneg (input : String) (tk : Token × Span)
    (htk : tk ∈ lex input) : ∀ i, tk.1 = .NumLiteral i → 0 ≤ i :=
  lexGo_numlit_nonneg _ _ _ tk htk

/-- Defining a text label leaves the text stream unchanged. -/
theorem add_text_label_ok_text (p p' : Parser) (n : String) (sp : Span)
    (h : p.add_text_label n sp = .ok p') : p'.text = p.text := by
  unfold Parser.add_text_label at h
  split at h
  · exact absurd h (by simp)
  · simp only [Except.ok.injEq] at h
    subst h
    rfl

/-- Defining a data label leaves the text stream unchanged. -/
theorem add_data_label_ok_text (p p' : Parser) (n : String) (sp : Span)
    (h : p.add_data_label n sp = .ok p') : p'.text = p.text := by
  unfold Parser.add_data_label at h
  split at h
  · exact absurd h (by simp)
  · simp only [Except.ok.injEq] at h
    subst h
    rfl

/-- Appending a data word leaves the text stream unchanged. -/
theorem add_data_ok_text (p p' : Parser) (d : Int) (sp : Span)
    (h : p.add_data d sp = .ok p') : p'.text = p.text := by
  unfold Parser.add_data at h
  split at h
  · exact absurd h (by simp)
  · simp only [Except.ok.injEq] at h
    subst h
    rfl

/-- Appending a run of data words leaves the text stream unchanged. -/
theorem add_data_list_ok_text :
    ∀ (l : List Int) (p p' : Parser) (sp : Span),
      p.add_data_list l sp = .ok p' → p'.text = p.text := by
  intro l
  induction l with
  | nil =>
    intro p p' sp h
    simp only [Parser.add_data_list, Except.ok.injEq] at h
    subst h
    rfl
  | cons d rest ih =>
    intro p p' sp h
    simp only [Parser.add_data_list] at h
    cases hd : p.add_data d sp with
    | error e => rw [hd] at h; exact absurd h (by simp)
    | ok p1 =>
      rw [hd] at h
      rw [ih p1 p' sp h, add_data_ok_text p p1 d sp hd]

/-- A successful `add_instr` appends exactly its instruction. -/
theorem add_instr_ok_text (p p' : Parser) (instr : Instruction) (sp : Span)
    (h : p.add_instr instr sp = .ok p') : p'.text = p.text ++ [instr] := by
  unfold Parser.add_instr at h
  split at h
  · exact absurd h (by simp)
  · simp only [Except.ok.injEq] at h
    subst h
    rfl

/-- The tokens left over by `parse_number_list` all come from its input. -/
theorem parse_number_list_mem :
    ∀ (n : Nat) (toks : TokenStream), toks.length ≤ n →
      ∀ (vs : List Int) (rem : TokenStream),
        parse_number_list toks = .ok (vs, rem) → ∀ x ∈ rem, x ∈ toks := by
  intro n
  induction n with
  | zero =>
    intro toks hlen vs rem h
    have htoks : toks = [] := List.length_eq_zero.mp (Nat.le_zero.mp hlen)
    subst htoks
    simp only [parse_number_list, Except.ok.injEq, Prod.mk.injEq] at h
    obtain ⟨-, h2⟩ := h
    subst h2
    intro x hx
    exact hx
  | succ n ih =>
    intro toks hlen vs rem h
    rw [parse_number_list.eq_def] at h
    split at h
    · rename_i snd v snd1 rest
      cases heq : parse_number_list rest with
      | error e => rw [heq] at h; simp at h
      | ok pr =>
        rw [heq] at h
        obtain ⟨vs0, rem0⟩ := pr
        simp only [Except.ok.injEq, Prod.mk.injEq] at h
        obtain ⟨-, h2⟩ := h
        subst h2
        intro x hx
        have hr : rest.length ≤ n := by
          simp only [List.length_cons] at hlen; omega
        exact List.mem_cons_of_mem _ (List.mem_cons_of_mem _ (ih rest hr vs0 rem0 heq x hx))
    · simp at h
    · simp at h
    · simp only [Except.ok.injEq, Prod.mk.injEq] at h
      obtain ⟨-, h2⟩ := h
      subst h2
      intro x hx
      exact hx

/-- A successful `parse_label` consumed exactly one identifier token. -/
theorem parse_label_ok_shape :
    ∀ (toks : TokenStream) (name : String) (sp : Span) (rest : TokenStream),
      parse_label toks = .ok (name, sp, rest) →
      toks = (Token.LabelIdent name, sp) :: rest := by
  intro toks name sp rest h
  cases toks with
  | nil => exact absurd h (by simp [parse_label])
  | cons hd tl =>
    obtain ⟨tok, sp0⟩ := hd
    cases tok
    case LabelIdent s =>
      simp only [parse_label, Except.ok.injEq, Prod.mk.injEq] at h
      obtain ⟨h1, h2, h3⟩ := h
      subst h1; subst h2; subst h3
      rfl
    all_goals simp [parse_label] at h

/-- A successful `parse_immediate` consumed exactly one in-range numeric
literal. -/
theorem parse_immediate_ok_shape :
    ∀ (toks : TokenStream) (i : Int) (sp : Span) (rest : TokenStream),
      parse_immediate toks = .ok (i, sp, rest) →
      toks = (Token.NumLiteral i, sp) :: rest ∧ -128 ≤ i ∧ i ≤ 127 := by
  intro toks i sp rest h
  cases toks with
  | nil => exact absurd h (by simp [parse_immediate])
  | cons hd tl =>
    obtain ⟨tok, sp0⟩ := hd
    cases tok
    case NumLiteral v =>
      simp only [parse_immediate] at h
      split at h
      · rename_i hguard
        simp only [Except.ok.injEq, Prod.mk.injEq] at h
        obtain ⟨h1, h2, h3⟩ := h
        subst h1; subst h2; subst h3
        exact ⟨rfl, hguard⟩
      · exact absurd h (by simp)
    all_goals simp [parse_immediate] at h

/-- The section parser preserves the invariant that every stored immediate
lies in `0..=127`, provided every numeric-literal token in the stream is
nonnegative (which `lex` guarantees) — the range check bounds it above by
127 and the unsigned lexical grammar below by 0. -/
theorem parse_sections_imm (endSpan : Span) :
    ∀ (fuel : Nat) (mode : Mode) (toks : TokenStream) (p q : Parser),
      parse_sections endSpan fuel mode toks p = .ok q →
      (∀ tk ∈ toks, ∀ i, (tk : Token × Span).1 = Token.NumLiteral i → 0 ≤ i) →
      (∀ instr ∈ p.text, ∀ i, instr.immediate? = some i → 0 ≤ i ∧ i ≤ 127) →
      ∀ instr ∈ q.text, ∀ i, instr.immediate? = some i → 0 ≤ i ∧ i ≤ 127 := by
  intro fuel
  induction fuel with
  | zero =>
    intro mode toks p q h _ _
    simp [parse_sections] at h
  | succ fuel ih =>
    intro mode toks p q h htoks hinv
    cases mode <;> rcases toks with _ | ⟨⟨tok, sp⟩, rest⟩
    -- the four (mode, stream-shape) cases; empty streams return the state
    case text.nil =>
      simp only [parse_sections, Except.ok.injEq] at h
      subst h; exact hinv
    case data.nil =>
      simp only [parse_sections, Except.ok.injEq] at h
      subst h; exact hinv
    all_goals cases tok <;> simp only [parse_sections] at h
    -- tokens that are outright errors in this mode
    all_goals try (exact absurd h (by simp))
    -- section switches
    all_goals try
      (exact ih _ _ _ _ h (fun tk hk => htoks tk (List.mem_cons_of_mem _ hk)) hinv)
    -- zero-operand instructions (`clac`, `noop`)
    all_goals try
      (split at h
       · exact absurd h (by simp)
       · rename_i p2 heq2
         refine ih _ _ _ _ h
           (fun tk hk => htoks tk (List.mem_cons_of_mem _ hk)) ?_
         intro instr hmem j hj
         rw [add_instr_ok_text _ _ _ _ heq2] at hmem
         rcases List.mem_append.mp hmem with hold | hnew
         · exact hinv instr hold j hj
         · simp only [List.mem_singleton] at hnew
           subst hnew
           exact absurd hj (by simp [Instruction.immediate?]))
    -- `.label` in text mode
    all_goals try
      (split at h
       · exact absurd h (by simp)
       · rename_i name sp2 rest2 heqL
         split at h
         · exact absurd h (by simp)
         · rename_i p2 heq2
           have hshape := parse_label_ok_shape _ _ _ _ heqL
           subst hshape
           refine ih _ _ _ _ h
             (fun tk hk =>
               htoks tk (List.mem_cons_of_mem _ (List.mem_cons_of_mem _ hk))) ?_
           intro instr hmem j hj
           rw [add_text_label_ok_text _ _ _ _ heq2] at hmem
           exact hinv instr hmem j hj)
    -- label-operand instructions
    all_goals try
      (split at h
       · exact absurd h (by simp)
       · rename_i l0 sp2 rest2 heqL
         split at h
         · exact absurd h (by simp)
         · rename_i p2 heq2
           have hshape := parse_label_ok_shape _ _ _ _ heqL
           subst hshape
           refine ih _ _ _ _ h
             (fun tk hk =>
               htoks tk (List.mem_cons_of_mem _ (List.mem_cons_of_mem _ hk))) ?_
           intro instr hmem j hj
           rw [add_instr_ok_text _ _ _ _ heq2] at hmem
           rcases List.mem_append.mp hmem with hold | hnew
           · exact hinv instr hold j hj
           · simp only [List.mem_singleton] at hnew
             subst hnew
             exact absurd hj (by simp [Instruction.immediate?]))
    -- immediate-operand instructions
    all_goals try
      (split at h
       · exact absurd h (by simp)
       · rename_i i0 sp2 rest2 heqI
         split at h
         · exact absurd h (by simp)
         · rename_i p2 heq2
           obtain ⟨hshape, hlo, hhi⟩ := parse_immediate_ok_shape _ _ _ _ heqI
           subst hshape
           refine ih _ _ _ _ h
             (fun tk hk =>
               htoks tk (List.mem_cons_of_mem _ (List.mem_cons_of_mem _ hk))) ?_
           intro instr hmem j hj
           rw [add_instr_ok_text _ _ _ _ heq2] at hmem
           rcases List.mem_append.mp hmem with hold | hnew
           · exact hinv instr hold j hj
           · simp only [List.mem_singleton] at hnew
             subst hnew
             simp only [Instruction.immediate?, Option.some.injEq] at hj
             subst hj
             refine ⟨?_, hhi⟩
             exact htoks (Token.NumLiteral i0, sp2)
               (List.mem_cons_of_mem _ (List.mem_cons_self _ _)) i0 rfl)
    -- `.label` in data mode (with its `.number` run)
    all_goals try
      (split at h
       · exact absurd h (by simp)
       · rename_i name sp2 rest2 heqL
         split at h
         · exact absurd h (by simp)
         · rename_i p2 heq2
           split at h
           · exact absurd h (by simp)
           · rename_i vs rem heqN
             split at h
             · exact absurd h (by simp)
             · rename_i p3 hadd
               have htext3 : p3.text = p.text := by
                 rw [add_data_list_ok_text _ _ _ _ hadd,
                   add_data_label_ok_text _ _ _ _ heq2]
               have hshape := parse_label_ok_shape _ _ _ _ heqL
               subst hshape
               refine ih _ _ _ _ h ?_ ?_
               · intro tk hk
                 refine htoks tk
                   (List.mem_cons_of_mem _ (List.mem_cons_of_mem _ ?_))
                 exact parse_number_list_mem rest2.length rest2 (le_refl _)
                   vs rem heqN tk hk
               · intro instr hmem j hj
                 rw [htext3] at hmem
                 exact hinv instr hmem j hj)

/-- C9: for every source text the parser accepts, every immediate operand
stored in a parsed instruction lies in `0..=127`: the range check caps it at
127 and the sign-less numeric grammar of the lexer makes negative literals
impossible. -/
theorem c9_immediate_range :
    ∀ (input : String) (p : Parser), Parser.parse input = .ok p →
      ∀ instr ∈ p.text, ∀ i, instr.immediate? = some i → 0 ≤ i ∧ i ≤ 127 := by
  intro input p h instr hmem i hsome
  unfold Parser.parse parse_input at h
  split at h
  · exact absurd h (by simp)
  · rename_i sp rest heq
    refine parse_sections_imm _ _ _ _ _ _ h ?_ ?_ instr hmem i hsome
    · intro tk hk
      exact lex_numlit_nonneg input tk (by rw [heq]; exact List.mem_cons_of_mem _ hk)
    · intro a ha
      exact absurd ha (List.not_mem_nil a)
  · rename_i sp rest heq
    refine parse_sections_imm _ _ _ _ _ _ h ?_ ?_ instr hmem i hsome
    · intro tk hk
      exact lex_numlit_nonneg input tk (by rw [heq]; exact List.mem_cons_of_mem _ hk)
    · intro a ha
      exact absurd ha (List.not_mem_nil a)
  · exact absurd h (by simp)

/-- C9 witness: `.text\n addi 5\n` parses, and its stored immediate obeys
the bounds. -/
theorem c9_immediate_range_witness :
    Parser.parse ".text\n addi 5\n" =
      .ok { text := [.AddImmediate 5], data := [],
            text_labels := [], data_labels := [] } ∧
    (0 ≤ (5 : Int) ∧ (5 : Int) ≤ 127) :=
  ⟨rfl,
   c9_immediate_range ".text\n addi 5\n"
     { text := [.AddImmediate 5], data := [], text_labels := [], data_labels := [] }
     rfl (.AddImmediate 5) (by simp) 5 rfl⟩

end OneAddr
